import Mathlib

/-!
# Candlestick chart overlay engine — verification development

A shallow embedding of the `CandlestickChart` component (technical-analysis
overlay composition and hit-testing) together with proofs of its key
behavioural properties.

Modelling conventions:
* JS numbers are modelled as `Int` (confidences, only ever formatted into
  label strings, as `ℚ`); the behaviours verified here involve only addition
  and comparison, which are exact for the magnitudes involved.
* JS string comparison (`<`, `>=` on strings, and `localeCompare` on
  same-shape ISO `YYYY-MM-DD` day keys) is code-unit lexicographic; it is
  modelled by the executable `charsLt`/`strLt` below.
* `Array.prototype.sort` is a stable sort; it is modelled by a stable
  insertion sort over the same total preorder, which produces the identical
  output list.
* The JS `Map` (insertion-ordered keys, in-place bucket push) is modelled by
  an association list.
* A per-entity `try { … } catch { /* skip */ }` loop is modelled by
  `entityFold` over an `Except`-valued entity body.
-/

/-! ## Time Coordinate Normalizer -/

/-- Code-unit lexicographic strict comparison of character lists: the JS
`<` on strings. -/
def charsLt : List Char → List Char → Bool
  | _, [] => false
  | [], _ :: _ => true
  | a :: as, b :: bs => if a < b then true else if b < a then false else charsLt as bs

/-- JS string `a < b` (code-unit lexicographic). -/
def strLt (a b : String) : Bool := charsLt a.data b.data

/-- Day normalization `toTime`, i.e. `ts.split("T")[0]` — normalize a timestamp to its calendar-day
prefix, the characters before the first `'T'`. -/
def toTime (ts : String) : String := ⟨ts.data.takeWhile fun c => c != 'T'⟩

/-! ## Data model (`types/api`) -/

/-- One OHLCV sample plus nullable per-bar indicator values (`ChartBar`).
`open` is a Lean keyword, hence the field name `open_`. -/
structure ChartBar where
  timestamp : String
  open_ : Int
  high : Int
  low : Int
  close : Int
  volume : Int
  ema9 : Option Int
  ema21 : Option Int
  ema50 : Option Int
  ema200 : Option Int
  rsi : Option Int
  macd_line : Option Int
  macd_signal : Option Int
  macd_hist : Option Int
  atr : Option Int
  volume_sma20 : Option Int
  vwap : Option Int
  rs_vs_spy : Option Int
deriving DecidableEq

/-- A discrete buy/sell `Signal`; the chart uses `action` and `entry`. -/
structure Signal where
  symbol : String
  action : String
  setup_type : String
  reason : String
  entry : Int
  stop_loss : Int
  target : Int
  rr_ratio : ℚ
  confidence : ℚ
  timestamp : String

/-- A `SupportResistanceLevel`. -/
structure SupportResistanceLevel where
  price : Int
  strength : ℚ
  touches : Nat
  zone_top : Int
  zone_bottom : Int
  level_type : String

/-- A timestamped (time, price) point, as used by trendline projections and
pattern boundaries. -/
structure TPoint where
  time : String
  price : Int
deriving DecidableEq

/-- A `TrendLine`: two timestamped endpoints plus forward-projection points. -/
structure TrendLine where
  start_time : String
  start_price : Int
  end_time : String
  end_price : Int
  touches : Nat
  trend_type : String
  projection : List TPoint
deriving DecidableEq

/-- A `ChartPattern`: classification, optional target price, bias and an
unordered list of boundary points. -/
structure ChartPattern where
  pattern_type : String
  confidence : ℚ
  target_price : Option Int
  boundary_points : List TPoint
  description : String
  bias : String

/-- A `PriceProjection`. -/
structure PriceProjection where
  price : Int
  confidence : ℚ
  reason : String
  projection_type : String

/-- The `TechnicalAnalysis` aggregate. -/
structure TechnicalAnalysis where
  support_levels : List SupportResistanceLevel
  resistance_levels : List SupportResistanceLevel
  trendlines : List TrendLine
  patterns : List ChartPattern
  projections : List PriceProjection
  trend_summary : String

/-! ## Drawable primitives -/

/-- A line-series primitive: `chart.addSeries(LineSeries, …)` followed by
`setData`. -/
structure SeriesPrim where
  color : String
  lineWidth : Nat
  lineStyle : Nat
  data : List (String × Int)
deriving DecidableEq

/-- A horizontal reference-line primitive: `createPriceLine`. -/
structure PriceLinePrim where
  price : Int
  color : String
  lineWidth : Nat
  lineStyle : Nat
  axisLabelVisible : Bool
  title : String
deriving DecidableEq

/-- A drawable primitive emitted by the overlay engine. -/
inductive Primitive
  | series : SeriesPrim → Primitive
  | priceLine : PriceLinePrim → Primitive
deriving DecidableEq

/-! ## Series Projector (`addLine` and the RS block) -/

/-- The data built inside `addLine`: pair each bar with its selected value
(`values[i]`), keep only non-null entries, in bar order. -/
def addLineData (bars : List ChartBar) (values : List (Option Int)) :
    List (String × Int) :=
  ((bars.zip values).map fun bv =>
    match bv.2 with
    | some v => some (toTime bv.1.timestamp, v)
    | none => none).reduceOption

/-- The `addLine` helper: gated on its `show` flag, emits one line series holding the
projected data. -/
def addLine (color : String) (bars : List ChartBar) (values : List (Option Int))
    (showIt : Bool) : List Primitive :=
  if !showIt then []
  else [Primitive.series
    { color := color, lineWidth := 1, lineStyle := 0, data := addLineData bars values }]

/-! ## Time Hit-Index (`patternTimeMap`) -/

/-- One tooltip entry (`PatternHit`). -/
structure PatternHit where
  description : String
  bias : String
  name : String
  price : Int
deriving DecidableEq

/-- The `patternTimeMap`: a JS `Map<string, PatternHit[]>` modelled as an
insertion-ordered association list. -/
abbrev HitMap := List (String × List PatternHit)

/-- Bucket lookup, `patternTimeMap.get(key)`. -/
def mapGet (m : HitMap) (k : String) : Option (List PatternHit) :=
  (m.find? fun e => e.1 == k).map (·.2)

/-- The registration step for one deduplicated pattern point: push into the
existing bucket unless an entry with the same `name` is already there,
otherwise start a new bucket. -/
def registerHit (m : HitMap) (key : String) (hit : PatternHit) : HitMap :=
  match mapGet m key with
  | some bucket =>
      if bucket.any fun h => h.name == hit.name then m
      else m.map fun e => if e.1 == key then (e.1, e.2 ++ [hit]) else e
  | none => m ++ [(key, [hit])]

/-- Lookup of a time, `lookup(time)`: the bucket's hits in insertion order, empty when the
time has no registrations. -/
def lookupHits (m : HitMap) (k : String) : List PatternHit :=
  (mapGet m k).getD []

/-! ## Entity Renderer: trendlines -/

/-- Colour choice for a trendline. -/
def trendColor (line : TrendLine) : String :=
  if line.trend_type == "uptrend" then "#22c55e" else "#ef4444"

/-- The solid two-point main series of a trendline. -/
def trendMainSeries (line : TrendLine) : SeriesPrim :=
  { color := trendColor line, lineWidth := 2, lineStyle := 0,
    data := [(toTime line.start_time, line.start_price),
             (toTime line.end_time, line.end_price)] }

/-- The dashed continuation series: the trendline's end point followed by the
supplied projection points, in the order supplied. -/
def trendProjSeries (line : TrendLine) : SeriesPrim :=
  { color := trendColor line ++ "80", lineWidth := 1, lineStyle := 2,
    data := (toTime line.end_time, line.end_price)
            :: line.projection.map fun p => (toTime p.time, p.price) }

/-- The per-trendline body: skip (`continue`) when the normalized start is
not strictly before the normalized end, otherwise emit the main series and,
when the projection list is non-empty, the dashed continuation. -/
def trendlinePrims (line : TrendLine) : List Primitive :=
  if strLt (toTime line.start_time) (toTime line.end_time) then
    Primitive.series (trendMainSeries line)
      :: (if line.projection.length > 0 then [Primitive.series (trendProjSeries line)] else [])
  else []

/-! ## Entity Renderer: chart patterns -/

/-- JS `\w`: ASCII letter, digit or underscore. -/
def isWordChar (c : Char) : Bool := c.isAlphanum || c == '_'

/-- Title casing, `replace(/\b\w/g, c => c.toUpperCase())`: uppercase every word character
that starts a word; the boolean tracks whether the previous character was a
word character. -/
def upWordStarts : Bool → List Char → List Char
  | _, [] => []
  | prevWord, c :: cs =>
      (if !prevWord && isWordChar c then c.toUpper else c) :: upWordStarts (isWordChar c) cs

/-- Underscore replacement, `pattern_type.replace(/_/g, " ")`. -/
def underscoresToSpaces (s : String) : String :=
  ⟨s.data.map fun c => if c == '_' then ' ' else c⟩

/-- The display name of a pattern: underscores to spaces, then title-case. -/
def patternDisplayName (patternType : String) : String :=
  ⟨upWordStarts false (underscoresToSpaces patternType).data⟩

/-- The pattern colour by bias. -/
def patternColor (p : ChartPattern) : String :=
  if p.bias == "bullish" then "#22c55e"
  else if p.bias == "bearish" then "#ef4444" else "#8b5cf6"

/-- Boundary points normalized to day granularity, in supplied order. -/
def normPoints (p : ChartPattern) : List (String × Int) :=
  p.boundary_points.map fun q => (toTime q.time, q.price)

/-- The sort comparator: `a.time.localeCompare(b.time) ≤ 0`, i.e. `a` stays
before `b` exactly when `b`'s time is not strictly below `a`'s. -/
def timeLe (a b : String × Int) : Bool := !strLt b.1 a.1

/-- Stable insertion of a point into an already sorted list (a point goes
before the first element it compares `≤` to). -/
def sortInsert (x : String × Int) : List (String × Int) → List (String × Int)
  | [] => [x]
  | y :: ys => if timeLe x y then x :: y :: ys else y :: sortInsert x ys

/-- Stable sort by normalized time, modelling the stable
`[...points].sort((a, b) => a.time.localeCompare(b.time))`. -/
def sortPoints : List (String × Int) → List (String × Int)
  | [] => []
  | x :: xs => sortInsert x (sortPoints xs)

/-- The sorted normalized boundary points of a pattern. -/
def sortedPoints (p : ChartPattern) : List (String × Int) :=
  sortPoints (normPoints p)

/-- Tail of the consecutive-duplicate filter: drop a point whose time equals
the time of the previous (original) element, as in
`filter((pt, i, arr) => i === 0 || pt.time !== arr[i-1].time)`. -/
def dedupAux : String × Int → List (String × Int) → List (String × Int)
  | _, [] => []
  | prev, q :: rest =>
      if q.1 == prev.1 then dedupAux q rest else q :: dedupAux q rest

/-- Remove consecutive points sharing the same normalized time, keeping the
first occurrence. -/
def dedupAdj : List (String × Int) → List (String × Int)
  | [] => []
  | p :: rest => p :: dedupAux p rest

/-- The deduplicated, sorted, normalized boundary points of a pattern. -/
def dedupedPoints (p : ChartPattern) : List (String × Int) :=
  dedupAdj (sortedPoints p)

/-- The polyline series for a pattern's shape. -/
def patternSeries (p : ChartPattern) : SeriesPrim :=
  { color := patternColor p, lineWidth := 2, lineStyle := 0, data := dedupedPoints p }

/-- The hit registered for one deduplicated pattern point. -/
def mkPatternHit (p : ChartPattern) (pt : String × Int) : PatternHit :=
  { description := p.description, bias := p.bias,
    name := patternDisplayName p.pattern_type, price := pt.2 }

/-- The axis label of the target-price line. -/
def targetTitle (p : ChartPattern) : String :=
  (if p.bias == "bullish" then "▲" else if p.bias == "bearish" then "▼" else "◆")
    ++ " " ++ underscoresToSpaces p.pattern_type

/-- The optional target-price reference line: `if (pattern.target_price)` is
a truthiness test, so both `null` and `0` yield nothing. -/
def targetPrims (p : ChartPattern) : List Primitive :=
  match p.target_price with
  | some tp =>
      if tp == 0 then []
      else [Primitive.priceLine
        { price := tp, color := patternColor p ++ "80", lineWidth := 1, lineStyle := 3,
          axisLabelVisible := true, title := targetTitle p }]
  | none => []

/-- The per-pattern body: when at least two boundary points are supplied,
sort + dedup them, draw the polyline when at least two remain, and register
every deduplicated point in the hit index; then emit the optional
target-price line. Returns the pattern's primitives and the updated index. -/
def patternBody (m : HitMap) (p : ChartPattern) : List Primitive × HitMap :=
  let shape : List Primitive × HitMap :=
    if 2 ≤ p.boundary_points.length then
      (if 2 ≤ (dedupedPoints p).length then [Primitive.series (patternSeries p)] else [],
       (dedupedPoints p).foldl (fun acc pt => registerHit acc pt.1 (mkPatternHit p pt)) m)
    else ([], m)
  (shape.1 ++ targetPrims p, shape.2)

/-! ## Entity Renderer: support/resistance and price projections -/

/-- One reference line per support level. -/
def supportPrim (level : SupportResistanceLevel) : Primitive :=
  Primitive.priceLine
    { price := level.price, color := "#22c55e60", lineWidth := 1, lineStyle := 1,
      axisLabelVisible := true, title := "S " ++ toString level.touches ++ "t" }

/-- One reference line per resistance level. -/
def resistancePrim (level : SupportResistanceLevel) : Primitive :=
  Primitive.priceLine
    { price := level.price, color := "#ef444460", lineWidth := 1, lineStyle := 1,
      axisLabelVisible := true, title := "R " ++ toString level.touches ++ "t" }

/-- One reference line per price projection; the label carries the rationale
and the rounded percentage confidence. -/
def projectionPrim (proj : PriceProjection) : Primitive :=
  Primitive.priceLine
    { price := proj.price,
      color := (if proj.projection_type == "bullish" then "#22c55e" else "#ef4444") ++ "90",
      lineWidth := 1, lineStyle := 3, axisLabelVisible := true,
      title := proj.reason ++ " (" ++ toString (round (proj.confidence * 100)) ++ "%)" }

/-! ## The per-entity `try`/`catch` loop -/

/-- The per-entity `for … { try { … } catch { /* skip */ } }` skeleton used
for trendlines and patterns: each entity body may fail; a failing entity
contributes no primitives and leaves the threaded state untouched, and the
loop — being a total function — never propagates the failure. -/
def entityFold {α σ : Type} (f : σ → α → Except String (List Primitive × σ)) :
    σ → List α → List Primitive × σ
  | s, [] => ([], s)
  | s, x :: xs =>
    match f s x with
    | .ok (ps, s') => let r := entityFold f s' xs; (ps ++ r.1, r.2)
    | .error _ => entityFold f s xs

/-! ## The render pass -/

/-- One candlestick datum. -/
structure CandlePoint where
  time : String
  open_ : Int
  high : Int
  low : Int
  close : Int
deriving DecidableEq

/-- The props of `CandlestickChart`, with their default values. -/
structure RenderInput where
  bars : List ChartBar
  signals : List Signal
  showEma9 : Bool := true
  showEma21 : Bool := true
  showEma50 : Bool := false
  showEma200 : Bool := false
  showVwap : Bool := false
  showRs : Bool := false
  technicalAnalysis : Option TechnicalAnalysis := none
  showSupportResistance : Bool := false
  showTrendlines : Bool := false
  showPatterns : Bool := false
  showProjections : Bool := false

/-- Everything one run of the effect produces: the base chart data, the
bar-derived indicator overlays, the signal reference lines, the four
technical-analysis overlay groups, the hit index and whether the crosshair
subscription was installed. -/
structure RenderOutput where
  candleData : List CandlePoint
  indicatorPrims : List Primitive
  signalPrims : List PriceLinePrim
  srPrims : List Primitive
  trendPrims : List Primitive
  patternPrims : List Primitive
  patternTimeMap : HitMap
  subscribed : Bool
  projPrims : List Primitive

/-- All primitives derived from technical-analysis entities. -/
def taOverlays (o : RenderOutput) : List Primitive :=
  o.srPrims ++ o.trendPrims ++ o.patternPrims ++ o.projPrims

/-- The render pass of the effect body: `return` early when there are no
bars (no chart is created at all), otherwise build the base chart, the
indicator overlays, the signal lines and the four technical-analysis
overlay groups, and install the crosshair subscription only when the hit
index is non-empty. -/
def render (inp : RenderInput) : Option RenderOutput :=
  if inp.bars.length == 0 then none
  else
    let ta := inp.technicalAnalysis
    let srPrims :=
      if inp.showSupportResistance then
        match ta with
        | some t => t.support_levels.map supportPrim ++ t.resistance_levels.map resistancePrim
        | none => []
      else []
    let trendPrims :=
      if inp.showTrendlines then
        match ta with
        | some t => (entityFold (fun u line => .ok (trendlinePrims line, u)) () t.trendlines).1
        | none => []
      else []
    let patternsResult :=
      if inp.showPatterns then
        match ta with
        | some t => entityFold (fun m p => .ok (patternBody m p)) ([] : HitMap) t.patterns
        | none => ([], [])
      else ([], [])
    let projPrims :=
      if inp.showProjections then
        match ta with
        | some t => t.projections.map projectionPrim
        | none => []
      else []
    some
      { candleData := inp.bars.map fun b =>
          { time := toTime b.timestamp, open_ := b.open_, high := b.high,
            low := b.low, close := b.close }
        indicatorPrims :=
          addLine "#06b6d4" inp.bars (inp.bars.map (·.ema9)) inp.showEma9 ++
          addLine "#eab308" inp.bars (inp.bars.map (·.ema21)) inp.showEma21 ++
          addLine "#f97316" inp.bars (inp.bars.map (·.ema50)) inp.showEma50 ++
          addLine "#ef4444" inp.bars (inp.bars.map (·.ema200)) inp.showEma200 ++
          addLine "#a855f7" inp.bars (inp.bars.map (·.vwap)) inp.showVwap ++
          (if inp.showRs then
            [Primitive.series
              { color := "#ec4899", lineWidth := 2, lineStyle := 0,
                data := (inp.bars.map fun b =>
                  (b.rs_vs_spy).map fun v => (toTime b.timestamp, v)).reduceOption }]
          else [])
        signalPrims := inp.signals.map fun s =>
          { price := s.entry,
            color := if s.action == "BUY" then "#22c55e80" else "#ef444480",
            lineWidth := 1, lineStyle := 2, axisLabelVisible := false, title := s.action }
        srPrims := srPrims
        trendPrims := trendPrims
        patternPrims := patternsResult.1
        patternTimeMap := patternsResult.2
        subscribed := patternsResult.2.length > 0
        projPrims := projPrims }

/-! ## Tooltip Resolver -/

/-- Tooltip placement: 16px right of and above the pointer, flipped to the
left of the pointer when the 280px-wide box would overflow the chart's
right edge, and the top clamped at zero. -/
def tooltipPos (width x y : Int) : Int × Int :=
  let left := x + 16
  let top := y - 16
  let left := if left + 280 > width then x - 296 else left
  let top := if top < 0 then 0 else top
  (left, top)

/-- One tooltip block for one hit: badge, name and description. -/
def hitLine (h : PatternHit) : String :=
  "<div style=\"margin-bottom:4px\"><strong>"
    ++ (if h.bias == "bullish" then "🟢" else if h.bias == "bearish" then "🔴" else "🟣")
    ++ " " ++ h.name ++ "</strong><br/><span style=\"color:#a1a1aa\">"
    ++ h.description ++ "</span></div>"

/-- The shown-tooltip computation of the crosshair handler: look the time up
in the hit index; an absent or empty bucket hides the tooltip, otherwise the
tooltip shows the joined hit blocks at the clamped position. `none` means
hidden; `some (content, left, top)` means shown there. -/
def tooltipShow (m : HitMap) (width : Int) (t : String) (x y : Int) :
    Option (String × Int × Int) :=
  match mapGet m t with
  | some hits =>
      if hits.length == 0 then none
      else some (String.join (hits.map hitLine),
                 (tooltipPos width x y).1, (tooltipPos width x y).2)
  | none => none

/-- The guards of the handler: no subscription (empty index) or a missing
pointer coordinate hide the tooltip; otherwise `tooltipShow` decides. -/
def resolveTooltip (m : HitMap) (width : Int) (time? : Option String)
    (point? : Option (Int × Int)) : Option (String × Int × Int) :=
  if m.length == 0 then none
  else
    match time? with
    | none => none
    | some t =>
      match point? with
      | none => none
      | some pt => tooltipShow m width t pt.1 pt.2

/-- Convenience accessors over an optional render result: with no render,
nothing is drawn and nothing is indexed. -/
def renderedOverlays : Option RenderOutput → List Primitive
  | none => []
  | some o => taOverlays o

/-- The hit index of an optional render result. -/
def renderedMap : Option RenderOutput → HitMap
  | none => []
  | some o => o.patternTimeMap

/-! ## The lexicographic time order: basic facts -/

theorem charsLt_irrefl : ∀ l : List Char, charsLt l l = false
  | [] => rfl
  | a :: as => by simp [charsLt, charsLt_irrefl as]

theorem charsLt_trans : ∀ {l₁ l₂ l₃ : List Char},
    charsLt l₁ l₂ = true → charsLt l₂ l₃ = true → charsLt l₁ l₃ = true
  | _, _ :: _, [], _, h₂ => by simp [charsLt] at h₂
  | [], _ :: _, _ :: _, _, _ => rfl
  | _ :: _, [], _, h₁, _ => by simp [charsLt] at h₁
  | [], [], _, h₁, h₂ => by simp [charsLt] at h₁
  | a :: as, b :: bs, c :: cs, h₁, h₂ => by
      simp only [charsLt] at h₁ h₂ ⊢
      rcases lt_trichotomy a b with hab | hab | hab
      · rcases lt_trichotomy b c with hbc | hbc | hbc
        · simp [lt_trans hab hbc]
        · subst hbc; simp [hab]
        · rw [if_neg (lt_asymm hbc), if_pos hbc] at h₂; exact absurd h₂ (by simp)
      · subst hab
        rw [if_neg (lt_irrefl a), if_neg (lt_irrefl a)] at h₁
        rcases lt_trichotomy a c with hac | hac | hac
        · simp [hac]
        · subst hac
          rw [if_neg (lt_irrefl a), if_neg (lt_irrefl a)] at h₂ ⊢
          exact charsLt_trans h₁ h₂
        · rw [if_neg (lt_asymm hac), if_pos hac] at h₂; exact absurd h₂ (by simp)
      · rw [if_neg (lt_asymm hab), if_pos hab] at h₁; exact absurd h₁ (by simp)

theorem charsLt_asymm {l₁ l₂ : List Char} (h : charsLt l₁ l₂ = true) :
    charsLt l₂ l₁ = false := by
  by_contra hc
  rw [Bool.not_eq_false] at hc
  have := charsLt_trans h hc
  rw [charsLt_irrefl] at this
  exact absurd this (by simp)

theorem charsLt_eq_of_not_lt : ∀ {l₁ l₂ : List Char},
    charsLt l₁ l₂ = false → charsLt l₂ l₁ = false → l₁ = l₂
  | [], [], _, _ => rfl
  | [], _ :: _, h₁, _ => by simp [charsLt] at h₁
  | _ :: _, [], _, h₂ => by simp [charsLt] at h₂
  | a :: as, b :: bs, h₁, h₂ => by
      simp only [charsLt] at h₁ h₂
      rcases lt_trichotomy a b with hab | hab | hab
      · rw [if_pos hab] at h₁; exact absurd h₁ (by simp)
      · subst hab
        rw [if_neg (lt_irrefl a), if_neg (lt_irrefl a)] at h₁ h₂
        rw [charsLt_eq_of_not_lt h₁ h₂]
      · rw [if_pos hab] at h₂; exact absurd h₂ (by simp)

theorem strLt_irrefl (s : String) : strLt s s = false := charsLt_irrefl s.data

theorem strLt_trans {a b c : String} (h₁ : strLt a b = true) (h₂ : strLt b c = true) :
    strLt a c = true := charsLt_trans h₁ h₂

theorem strLt_asymm {a b : String} (h : strLt a b = true) : strLt b a = false :=
  charsLt_asymm h

theorem strLt_eq_of_not_lt {a b : String} (h₁ : strLt a b = false)
    (h₂ : strLt b a = false) : a = b := by
  cases a; cases b
  exact congrArg String.mk (charsLt_eq_of_not_lt h₁ h₂)

/-! ## Sortedness of the pattern pipeline -/

/-- Point order: `a` comes no later than `b` — the comparator's non-strict order on
normalized (time, price) points. -/
def PtLe (a b : String × Int) : Prop := strLt b.1 a.1 = false

/-- Point order: `a` is strictly earlier than `b` on normalized time. -/
def PtLt (a b : String × Int) : Prop := strLt a.1 b.1 = true

theorem timeLe_iff {a b : String × Int} : timeLe a b = true ↔ PtLe a b := by
  simp [timeLe, PtLe]

theorem ptLe_total (a b : String × Int) : PtLe a b ∨ PtLe b a := by
  rcases h : strLt b.1 a.1 with _ | _
  · exact Or.inl h
  · exact Or.inr (strLt_asymm h)

theorem ptLe_trans {a b c : String × Int} (h₁ : PtLe a b) (h₂ : PtLe b c) : PtLe a c := by
  unfold PtLe at *
  by_contra hc
  rw [Bool.not_eq_false] at hc
  rcases hlt : strLt a.1 b.1 with _ | _
  · have hab : a.1 = b.1 := strLt_eq_of_not_lt hlt h₁
    rw [hab] at hc
    exact absurd hc (by simp [h₂])
  · exact absurd (strLt_trans hc hlt) (by simp [h₂])

theorem ptLt_trans {a b c : String × Int} (h₁ : PtLt a b) (h₂ : PtLt b c) : PtLt a c :=
  strLt_trans h₁ h₂

theorem ptLe_ne_lt {a b : String × Int} (h : PtLe a b) (hne : a.1 ≠ b.1) : PtLt a b := by
  rcases hlt : strLt a.1 b.1 with _ | _
  · exact absurd (strLt_eq_of_not_lt hlt h) hne
  · exact hlt

theorem ptLt_ne {a b : String × Int} (h : PtLt a b) : a.1 ≠ b.1 := by
  intro he
  rw [PtLt, he, strLt_irrefl] at h
  exact absurd h (by simp)

instance : IsTrans (String × Int) PtLt := ⟨fun _ _ _ => ptLt_trans⟩

theorem sortInsert_perm (x : String × Int) :
    ∀ l : List (String × Int), (sortInsert x l).Perm (x :: l)
  | [] => List.Perm.refl _
  | y :: ys => by
      rw [sortInsert]
      rcases h : timeLe x y with _ | _
      · rw [if_neg (by simp [h])]
        exact ((sortInsert_perm x ys).cons y).trans (List.Perm.swap x y ys)
      · simp

theorem sortPoints_perm : ∀ l : List (String × Int), (sortPoints l).Perm l
  | [] => List.Perm.refl _
  | x :: xs =>
      (sortInsert_perm x (sortPoints xs)).trans ((sortPoints_perm xs).cons x)

theorem mem_sortInsert {x y : String × Int} {l : List (String × Int)} :
    y ∈ sortInsert x l ↔ y = x ∨ y ∈ l := by
  rw [(sortInsert_perm x l).mem_iff, List.mem_cons]

theorem pairwise_sortInsert (x : String × Int) :
    ∀ {l : List (String × Int)}, List.Pairwise PtLe l →
      List.Pairwise PtLe (sortInsert x l)
  | [], _ => List.pairwise_singleton _ _
  | y :: ys, h => by
      rw [sortInsert]
      rcases List.pairwise_cons.mp h with ⟨hy, hys⟩
      rcases hxy : timeLe x y with _ | _
      · rw [if_neg (by simp [hxy])]
        have hyx : PtLe y x := by
          rcases ptLe_total x y with hl | hr
          · exact absurd (timeLe_iff.mpr hl) (by simp [hxy])
          · exact hr
        refine List.pairwise_cons.mpr ⟨?_, pairwise_sortInsert x hys⟩
        intro z hz
        rcases mem_sortInsert.mp hz with rfl | hzys
        · exact hyx
        · exact hy z hzys
      · have hxyp : PtLe x y := timeLe_iff.mp hxy
        refine List.pairwise_cons.mpr ⟨?_, h⟩
        intro z hz
        rcases List.mem_cons.mp hz with rfl | hzys
        · exact hxyp
        · exact ptLe_trans hxyp (hy z hzys)

theorem pairwise_sortPoints : ∀ l : List (String × Int),
    List.Pairwise PtLe (sortPoints l)
  | [] => List.Pairwise.nil
  | x :: xs => pairwise_sortInsert x (pairwise_sortPoints xs)

theorem dedupAux_spec (prev : String × Int) :
    ∀ {l : List (String × Int)}, List.Pairwise PtLe (prev :: l) →
      List.Chain' PtLt (dedupAux prev l) ∧ ∀ z ∈ dedupAux prev l, PtLt prev z
  | [], _ => ⟨List.chain'_nil, by simp [dedupAux]⟩
  | q :: rest, h => by
      rcases List.pairwise_cons.mp h with ⟨hprev, hqrest⟩
      have hrec := dedupAux_spec q hqrest
      rw [dedupAux]
      rcases heq : q.1 == prev.1 with _ | _
      · rw [if_neg (by simp [heq])]
        have hlt : PtLt prev q :=
          ptLe_ne_lt (hprev q (by simp)) fun he => by simp [he.symm] at heq
        refine ⟨List.chain'_cons'.mpr ⟨?_, hrec.1⟩, ?_⟩
        · intro z hz
          exact hrec.2 z (List.mem_of_mem_head? hz)
        · intro z hz
          rcases List.mem_cons.mp hz with rfl | hzr
          · exact hlt
          · exact ptLt_trans hlt (hrec.2 z hzr)
      · rw [if_pos (by simp [heq])]
        have hqp : q.1 = prev.1 := by simpa using heq
        refine ⟨hrec.1, fun z hz => ?_⟩
        have := hrec.2 z hz
        rwa [PtLt, hqp] at this

theorem dedupAdj_chain' : ∀ {l : List (String × Int)},
    List.Pairwise PtLe l → List.Chain' PtLt (dedupAdj l)
  | [], _ => List.chain'_nil
  | p :: rest, h => by
      rw [dedupAdj]
      exact List.chain'_cons'.mpr
        ⟨fun z hz => (dedupAux_spec p h).2 z (List.mem_of_mem_head? hz),
         (dedupAux_spec p h).1⟩

/-- The deduplicated points of any pattern are strictly increasing in
normalized time. -/
theorem dedupedPoints_chain' (p : ChartPattern) :
    List.Chain' PtLt (dedupedPoints p) :=
  dedupAdj_chain' (pairwise_sortPoints (normPoints p))

/-- The deduplicated points of any pattern have pairwise distinct times. -/
theorem dedupedPoints_keys_distinct (p : ChartPattern) :
    List.Pairwise (fun a b : String × Int => a.1 ≠ b.1) (dedupedPoints p) :=
  (List.chain'_iff_pairwise.mp (dedupedPoints_chain' p)).imp fun h => ptLt_ne h

/-! ## Hit-index registration lemmas -/

theorem mapGet_append (m₁ m₂ : HitMap) (k : String) :
    mapGet (m₁ ++ m₂) k = (mapGet m₁ k).or (mapGet m₂ k) := by
  simp only [mapGet, List.find?_append]
  rcases hf : m₁.find? fun e => e.1 == k with _ | e <;>
    rcases hg : m₂.find? fun e => e.1 == k with _ | f <;>
      simp [Option.or, hf, hg]

theorem mapGet_nil (k : String) : mapGet [] k = none := rfl

/-- Registering under a key not yet in the map appends a fresh singleton
bucket at the end. -/
theorem registerHit_fresh {m : HitMap} {key : String} (hit : PatternHit)
    (h : mapGet m key = none) : registerHit m key hit = m ++ [(key, [hit])] := by
  simp [registerHit, h]

/-- Registering a hit whose `name` already occurs in the key's bucket leaves
the map unchanged. -/
theorem registerHit_dup {m : HitMap} {key : String} {bucket : List PatternHit}
    (hit : PatternHit) (h : mapGet m key = some bucket)
    (hdup : bucket.any (fun x => x.name == hit.name) = true) :
    registerHit m key hit = m := by
  simp [registerHit, h, hdup]

/-- Looking up `key` after the in-place bucket update: the bucket gained the
new hit at its end. -/
theorem mapGet_mapUpdate (m : HitMap) (key : String) (hit : PatternHit) :
    mapGet (m.map fun e => if e.1 == key then (e.1, e.2 ++ [hit]) else e) key
      = (mapGet m key).map fun b => b ++ [hit] := by
  have hpe : ((fun e : String × List PatternHit => e.1 == key) ∘
      (fun e : String × List PatternHit =>
        if e.1 == key then (e.1, e.2 ++ [hit]) else e)) =
      fun e : String × List PatternHit => e.1 == key := by
    funext e
    rcases he : e.1 == key with _ | _
    · rw [Function.comp_apply, if_neg (by simp [he])]
      exact he
    · rw [Function.comp_apply, if_pos (by simp [he])]
      exact he
  simp only [mapGet]
  rw [List.find?_map, hpe]
  rcases hf : m.find? (fun e : String × List PatternHit => e.1 == key) with _ | e
  · rfl
  · have hkey := List.find?_some hf
    simp only [] at hkey
    have hk : e.1 = key := by simpa using hkey
    simp [hkey, hk]

/-- Registering a hit with a fresh `name` under an existing key appends it to
that key's bucket, in place. -/
theorem mapGet_registerHit_push {m : HitMap} {key : String}
    {bucket : List PatternHit} (hit : PatternHit) (h : mapGet m key = some bucket)
    (hfresh : bucket.any (fun x => x.name == hit.name) = false) :
    mapGet (registerHit m key hit) key = some (bucket ++ [hit]) := by
  simp only [registerHit, h, hfresh, Bool.false_eq_true, if_false]
  rw [mapGet_mapUpdate, h]
  rfl

/-- Folding the registration step over points with pairwise-distinct keys,
none of which is in the map yet, appends one singleton bucket per point. -/
theorem foldl_registerHit_fresh (hitOf : String × Int → PatternHit) :
    ∀ (pts : List (String × Int)) (m : HitMap),
      (∀ pt ∈ pts, mapGet m pt.1 = none) →
      List.Pairwise (fun a b : String × Int => a.1 ≠ b.1) pts →
      pts.foldl (fun acc pt => registerHit acc pt.1 (hitOf pt)) m
        = m ++ pts.map fun pt => (pt.1, [hitOf pt])
  | [], m, _, _ => by simp
  | pt :: rest, m, hfresh, hpair => by
      rcases List.pairwise_cons.mp hpair with ⟨hne, hpair'⟩
      have h0 : mapGet m pt.1 = none := hfresh pt (by simp)
      rw [List.foldl_cons, registerHit_fresh _ h0,
        foldl_registerHit_fresh hitOf rest (m ++ [(pt.1, [hitOf pt])]) ?_ hpair']
      · simp
      · intro q hq
        have hb : (pt.1 == q.1) = false := by simp [hne q hq]
        rw [mapGet_append, hfresh q (by simp [hq])]
        simp [mapGet, hb, Option.or]

/-- The hit index built by one pattern from an empty map is exactly one
singleton bucket per deduplicated point, in order. -/
theorem patternRegistration (p : ChartPattern) (h2 : 2 ≤ p.boundary_points.length) :
    (patternBody [] p).2 = (dedupedPoints p).map fun pt => (pt.1, [mkPatternHit p pt]) := by
  simp only [patternBody, if_pos h2]
  simpa using foldl_registerHit_fresh (mkPatternHit p) (dedupedPoints p) []
    (by simp [mapGet_nil]) (dedupedPoints_keys_distinct p)

/-- Looking up any point of a singleton-bucket map with distinct keys
returns that point's bucket. -/
theorem lookupHits_mapSingleton (hitOf : String × Int → PatternHit) :
    ∀ pts : List (String × Int),
      List.Pairwise (fun a b : String × Int => a.1 ≠ b.1) pts →
      ∀ pt ∈ pts, lookupHits (pts.map fun q => (q.1, [hitOf q])) pt.1 = [hitOf pt]
  | [], _, pt, hmem => by simp at hmem
  | q :: rest, hpair, pt, hmem => by
      rcases List.pairwise_cons.mp hpair with ⟨hne, hpair'⟩
      rcases List.mem_cons.mp hmem with rfl | hmem'
      · simp [lookupHits, mapGet, List.find?]
      · have hb : (q.1 == pt.1) = false := by simp [hne pt hmem']
        have := lookupHits_mapSingleton hitOf rest hpair' pt hmem'
        simpa [lookupHits, mapGet, List.find?, hb] using this

/-! ## Claim theorems -/

/-- C2: for every trendline, if the normalized start is not strictly before
the normalized end the renderer emits zero primitives (and, being a total
function, throws nothing); otherwise it emits the solid two-point line from
(start, start_price) to (end, end_price) and, exactly when the projection
list is non-empty, one dashed series beginning at the trendline's end point
followed by the supplied projection points in supplied order, unsorted. -/
theorem trendline_render_spec (line : TrendLine) :
    (strLt (toTime line.start_time) (toTime line.end_time) = false →
      trendlinePrims line = []) ∧
    (strLt (toTime line.start_time) (toTime line.end_time) = true →
      trendlinePrims line =
        Primitive.series (trendMainSeries line)
          :: (if line.projection = [] then []
              else [Primitive.series (trendProjSeries line)]) ∧
      (trendMainSeries line).data =
        [(toTime line.start_time, line.start_price),
         (toTime line.end_time, line.end_price)] ∧
      (trendMainSeries line).lineStyle = 0 ∧
      (trendProjSeries line).data =
        (toTime line.end_time, line.end_price)
          :: (line.projection.map fun p => (toTime p.time, p.price)) ∧
      (trendProjSeries line).lineStyle = 2) := by
  constructor
  · intro h
    simp [trendlinePrims, h]
  · intro h
    refine ⟨?_, rfl, rfl, rfl, rfl⟩
    rcases hp : line.projection with _ | ⟨q, qs⟩ <;>
      simp [trendlinePrims, h, hp]

/-- Scenario A (projection continues from the end point) and Scenario B
(reversed range yields zero primitives), instantiating the trendline
theorem. -/
def scenarioATrendline : TrendLine :=
  { start_time := "2024-01-01T00:00:00", start_price := 10,
    end_time := "2024-01-05T00:00:00", end_price := 12,
    touches := 2, trend_type := "uptrend",
    projection := [⟨"2024-01-10T00:00:00", 14⟩] }

/-- Scenario B: the reversed trendline. -/
def scenarioBTrendline : TrendLine :=
  { start_time := "2024-01-05T00:00:00", start_price := 12,
    end_time := "2024-01-01T00:00:00", end_price := 10,
    touches := 2, trend_type := "uptrend", projection := [] }

/-- Witness for C2: scenario B emits nothing; scenario A emits the two-point
line and the dashed continuation. -/
theorem trendline_render_witness :
    trendlinePrims scenarioBTrendline = [] ∧
    trendlinePrims scenarioATrendline =
      [Primitive.series (trendMainSeries scenarioATrendline),
       Primitive.series (trendProjSeries scenarioATrendline)] := by
  constructor
  · exact (trendline_render_spec scenarioBTrendline).1 (by decide)
  · rw [((trendline_render_spec scenarioATrendline).2 (by decide)).1,
      if_neg (by decide)]

/-- C9: presence of the optional target price is decided by truthiness —
`null` and `0` both yield no reference line, while any non-null non-zero
target price yields exactly one reference line at that price. -/
theorem target_price_truthiness (p : ChartPattern) :
    (p.target_price = none → targetPrims p = []) ∧
    (p.target_price = some 0 → targetPrims p = []) ∧
    ∀ tp : Int, p.target_price = some tp → tp ≠ 0 →
      targetPrims p =
        [Primitive.priceLine
          { price := tp, color := patternColor p ++ "80", lineWidth := 1,
            lineStyle := 3, axisLabelVisible := true, title := targetTitle p }] := by
  refine ⟨fun h => ?_, fun h => ?_, fun tp h htp => ?_⟩
  · simp [targetPrims, h]
  · simp [targetPrims, h]
  · simp [targetPrims, h, htp]

/-- A pattern whose target price is exactly 0. -/
def zeroTargetPattern : ChartPattern :=
  { pattern_type := "flat_base", confidence := 1, target_price := some 0,
    boundary_points := [], description := "base", bias := "neutral" }

/-- A pattern with a non-zero target price. -/
def posTargetPattern : ChartPattern :=
  { pattern_type := "flag", confidence := 1, target_price := some 25,
    boundary_points := [], description := "flag", bias := "bullish" }

/-- Witness for C9: a zero target price yields no line, a non-zero one
yields exactly one. -/
theorem target_price_truthiness_witness :
    targetPrims zeroTargetPattern = [] ∧
    targetPrims posTargetPattern =
      [Primitive.priceLine
        { price := 25, color := patternColor posTargetPattern ++ "80", lineWidth := 1,
          lineStyle := 3, axisLabelVisible := true, title := targetTitle posTargetPattern }] :=
  ⟨(target_price_truthiness zeroTargetPattern).2.1 rfl,
   (target_price_truthiness posTargetPattern).2.2 25 rfl (by decide)⟩

/-- C3: looking up a time returns the bucket in registration order;
registering appends at the end of the bucket when the label (`name`) is
fresh there, and leaves the whole map unchanged when the label already
occurs at that time — the first registered entry wins even when the
descriptions differ. -/
theorem hit_index_register_lookup (m : HitMap) (key : String) (hit : PatternHit) :
    lookupHits (registerHit m key hit) key =
      if (lookupHits m key).any (fun h => h.name == hit.name)
      then lookupHits m key
      else lookupHits m key ++ [hit] := by
  rcases h : mapGet m key with _ | bucket
  · have hf : (m.find? fun e => e.1 == key) = none := by
      rcases hf : m.find? fun e => e.1 == key with _ | e
      · exact hf
      · rw [mapGet, hf] at h
        simp at h
    rw [registerHit_fresh hit h]
    simp [lookupHits, mapGet_append, h, mapGet, Option.or, hf]
  · rcases hdup : bucket.any fun x => x.name == hit.name with _ | _
    · rw [lookupHits, mapGet_registerHit_push hit h hdup]
      simp [lookupHits, h, hdup]
    · rw [registerHit_dup hit h hdup]
      simp [lookupHits, h, hdup]

/-- Projecting a bar field is filtering the non-null bars, in order. -/
theorem addLineData_map_sel (sel : ChartBar → Option Int) :
    ∀ bars : List ChartBar,
      addLineData bars (bars.map sel)
        = bars.filterMap fun b => (sel b).map fun v => (toTime b.timestamp, v)
  | [] => rfl
  | b :: bs => by
      rcases h : sel b with _ | v <;>
        simp [addLineData, List.reduceOption, h, ← addLineData_map_sel sel bs]

/-- A filterMap whose function hits every element preserves the length. -/
theorem filterMap_length_all_some {f : ChartBar → Option (String × Int)} :
    ∀ {bars : List ChartBar}, (∀ b ∈ bars, (f b).isSome) →
      (bars.filterMap f).length = bars.length
  | [], _ => rfl
  | b :: bs, h => by
      have hbs : ∀ q ∈ bs, (f q).isSome := fun q hq => h q (List.mem_cons_of_mem b hq)
      rcases hb : f b with _ | v
      · have hcontra := h b (List.mem_cons_self b bs)
        rw [hb] at hcontra
        simp at hcontra
      · simp [hb, filterMap_length_all_some hbs]

/-- C7: for every bar sequence and selected per-bar field, the projected
series is exactly the (normalized time, value) pairs of the bars whose
field is non-null, in bar order; its length is at most the input length;
an all-null field projects to the empty series, and an everywhere-present
field projects to a series of the input's length. -/
theorem series_projector_spec (bars : List ChartBar) (sel : ChartBar → Option Int) :
    addLineData bars (bars.map sel)
        = (bars.filterMap fun b => (sel b).map fun v => (toTime b.timestamp, v)) ∧
    (addLineData bars (bars.map sel)).length ≤ bars.length ∧
    ((∀ b ∈ bars, sel b = none) → addLineData bars (bars.map sel) = []) ∧
    ((∀ b ∈ bars, (sel b).isSome) →
      (addLineData bars (bars.map sel)).length = bars.length) := by
  refine ⟨addLineData_map_sel sel bars, ?_, fun hnone => ?_, fun hsome => ?_⟩
  · rw [addLineData_map_sel sel bars]
    exact List.length_filterMap_le _ _
  · rw [addLineData_map_sel sel bars]
    exact List.filterMap_eq_nil_iff.mpr fun b hb => by simp [hnone b hb]
  · rw [addLineData_map_sel sel bars]
    exact filterMap_length_all_some fun b hb => by simp [hsome b hb]

/-- Two concrete bars for the projector witness. -/
def mkBar (ts : String) (e9 : Option Int) : ChartBar :=
  { timestamp := ts, open_ := 1, high := 2, low := 0, close := 1, volume := 100,
    ema9 := e9, ema21 := none, ema50 := none, ema200 := none, rsi := none,
    macd_line := none, macd_signal := none, macd_hist := none, atr := none,
    volume_sma20 := none, vwap := none, rs_vs_spy := none }

/-- Witness for C7: an all-null field projects to the empty series; an
everywhere-present field projects to a series of the input's length. -/
theorem series_projector_witness :
    addLineData [mkBar "2024-01-01T00:00:00" (some 5), mkBar "2024-01-02T00:00:00" (some 6)]
        ([mkBar "2024-01-01T00:00:00" (some 5), mkBar "2024-01-02T00:00:00" (some 6)].map (·.ema21))
      = [] ∧
    (addLineData [mkBar "2024-01-01T00:00:00" (some 5), mkBar "2024-01-02T00:00:00" (some 6)]
        ([mkBar "2024-01-01T00:00:00" (some 5), mkBar "2024-01-02T00:00:00" (some 6)].map (·.ema9))).length
      = 2 :=
  ⟨(series_projector_spec _ (·.ema21)).2.2.1 (by decide),
   (series_projector_spec _ (·.ema9)).2.2.2 (by decide)⟩

/-- C5: the per-entity `try`/`catch` loop isolates failures — when the body
throws on one entity (at the state reached after the preceding entities),
the loop's outcome is exactly the outcome without that entity: it
contributes no primitives and no state change, every other entity is fully
rendered, and, the loop being a total function, nothing propagates to the
caller. -/
theorem entity_failure_isolation {α σ : Type}
    (f : σ → α → Except String (List Primitive × σ)) (post : List α) (bad : α)
    (e : String) :
    ∀ (pre : List α) (s : σ), f (entityFold f s pre).2 bad = .error e →
      entityFold f s (pre ++ bad :: post) = entityFold f s (pre ++ post)
  | [], s, hbad => by
      simp only [entityFold] at hbad
      simp [entityFold, hbad]
  | x :: xs, s, hbad => by
      rcases hx : f s x with e' | ⟨ps, s'⟩
      · simp only [entityFold, hx, List.append_eq] at hbad ⊢
        exact entity_failure_isolation f post bad e xs s hbad
      · simp only [entityFold, hx, List.append_eq] at hbad ⊢
        rw [entity_failure_isolation f post bad e xs s' hbad]

/-- The series primitive the isolation-witness body emits per entity. -/
def witnessSeries (n : Nat) : SeriesPrim :=
  { color := "#fff", lineWidth := 1, lineStyle := 0,
    data := [("2024-01-01", Int.ofNat n)] }

/-- A body for the isolation witness: fails on entity 0, otherwise emits one
series primitive per entity and counts the successes in its state. -/
def witnessBody (s : Nat) (n : Nat) : Except String (List Primitive × Nat) :=
  if n = 0 then .error "unexpected point count"
  else .ok ([Primitive.series (witnessSeries n)], s + 1)

/-- Witness for C5: with entities `[1, 0, 2]` where the body throws on `0`,
the loop renders exactly as it does for `[1, 2]`. -/
theorem entity_failure_isolation_witness :
    entityFold witnessBody 0 ([1] ++ 0 :: [2]) = entityFold witnessBody 0 ([1] ++ [2]) :=
  entity_failure_isolation witnessBody [2] 0 "unexpected point count" [1] 0 rfl

/-- With an empty hit index no crosshair subscription is installed, so the
handler never shows the tooltip. -/
theorem resolveTooltip_empty (m : HitMap) (w : Int) (t? : Option String)
    (p? : Option (Int × Int)) (hm : (m.length == 0) = true) :
    resolveTooltip m w t? p? = none := by
  have h : resolveTooltip m w t? p? = (if (m.length == 0) = true then none
      else match t? with
      | none => none
      | some t =>
        match p? with
        | none => none
        | some pt => tooltipShow m w t pt.1 pt.2) := rfl
  rw [h, if_pos hm]

/-- Bounds actually guaranteed by the tooltip placement: the top offset is
never negative; the right edge never passes the chart width while the
pointer is inside it; and the left edge is non-negative either when no flip
happened or whenever the pointer sits at least 296px from the left edge. -/
theorem tooltipPos_bounds (width x y : Int) (hx0 : 0 ≤ x) (hxw : x ≤ width) :
    0 ≤ (tooltipPos width x y).2 ∧
    (tooltipPos width x y).1 + 280 ≤ width ∧
    (296 ≤ x → 0 ≤ (tooltipPos width x y).1) := by
  simp only [tooltipPos]
  split_ifs with h1 h2 <;>
    exact ⟨by omega, by omega, fun h => by omega⟩

/-- The hit registered at Jan 2 for the tooltip scenarios. -/
def cexHit : PatternHit :=
  { description := "W-shaped reversal", bias := "bullish",
    name := "Double Bottom", price := 20 }

/-- A hit index with one bucket at Jan 2. -/
def cexMap : HitMap := [("2024-01-02", [cexHit])]

/-- Counterexample for C8: on a 400px-wide chart with the pointer at
x = 200 (inside the chart), the shown tooltip's computed left offset is
−96, so the 280px-wide box sticks out past the chart's left edge — the
claim that the computed position keeps the tooltip fully inside the
chart's width is false. -/
theorem tooltip_clamp_counterexample :
    (0 : Int) ≤ 200 ∧ (200 : Int) ≤ 400 ∧
    resolveTooltip cexMap 400 (some "2024-01-02") (some (200, 50))
      = some (String.join [hitLine cexHit], -96, 34) ∧
    (-96 : Int) < 0 := by
  refine ⟨by decide, by decide, ?_, by decide⟩
  decide

/-- C8 as amended: whenever the tooltip is shown for a pointer inside the
chart, the vertical offset is never negative and the tooltip's right edge
(left + 280) never passes the chart width; the left edge is guaranteed
non-negative only when the pointer is at least 296px into the chart. -/
theorem tooltip_clamp_spec (m : HitMap) (width : Int) (t? : Option String)
    (p? : Option (Int × Int)) (x y left top : Int) (content : String)
    (hx0 : 0 ≤ x) (hxw : x ≤ width) (hp : p? = some (x, y))
    (hshow : resolveTooltip m width t? p? = some (content, left, top)) :
    0 ≤ top ∧ left + 280 ≤ width ∧ (296 ≤ x → 0 ≤ left) := by
  subst hp
  rcases hm : m.length == 0 with _ | _
  · rcases t? with _ | t
    · have hshow' : (if (m.length == 0) = true then none
          else (none : Option (String × Int × Int))) = some (content, left, top) := hshow
      rw [ite_self] at hshow'
      exact Option.noConfusion hshow'
    · have hshow' : (if (m.length == 0) = true then none
          else tooltipShow m width t x y) = some (content, left, top) := hshow
      rw [if_neg (by simp [hm])] at hshow'
      rcases hg : mapGet m t with _ | hits
      · rw [tooltipShow, hg] at hshow'
        exact Option.noConfusion hshow'
      · rw [tooltipShow, hg] at hshow'
        have hshow2 : (if (hits.length == 0) = true then none
            else some (String.join (hits.map hitLine),
              (tooltipPos width x y).1, (tooltipPos width x y).2))
            = some (content, left, top) := hshow'
        rcases hl : hits.length == 0 with _ | _
        · rw [if_neg (by simp [hl])] at hshow2
          cases Option.some.inj hshow2
          exact tooltipPos_bounds width x y hx0 hxw
        · rw [if_pos (by simp [hl])] at hshow2
          exact Option.noConfusion hshow2
  · rw [resolveTooltip_empty m width t? (some (x, y)) hm] at hshow
    exact Option.noConfusion hshow

/-- Witness for C8 (amended): a shown tooltip on a 1000px chart with the
pointer at (500, 5) resolves to position (516, 0), which satisfies all
three bounds. -/
theorem tooltip_clamp_witness :
    (0 : Int) ≤ 0 ∧ (516 : Int) + 280 ≤ 1000 ∧ ((296 : Int) ≤ 500 → (0 : Int) ≤ 516) :=
  tooltip_clamp_spec cexMap 1000 (some "2024-01-02") (some (500, 5)) 500 5 516 0
    (String.join [hitLine cexHit]) (by decide) (by decide) rfl (by decide)

/-- C1: for every pattern with at least two boundary points, the points the
renderer works with are the normalized boundary points re-ordered (a
permutation) into non-decreasing normalized time, the deduplicated list is
strictly increasing in normalized time (hence any drawn polyline is
monotonically non-decreasing), the polyline — when drawn — carries exactly
the deduplicated points, and the hit index receives exactly one bucket per
deduplicated point, in order. -/
theorem pattern_polyline_hit_index_spec (m : HitMap) (p : ChartPattern)
    (h : 2 ≤ p.boundary_points.length) :
    (sortedPoints p).Perm (normPoints p) ∧
    List.Pairwise PtLe (sortedPoints p) ∧
    List.Chain' PtLt (dedupedPoints p) ∧
    (2 ≤ (dedupedPoints p).length →
      (patternBody m p).1 = Primitive.series (patternSeries p) :: targetPrims p ∧
      (patternSeries p).data = dedupedPoints p) ∧
    (patternBody [] p).2 = (dedupedPoints p).map fun pt => (pt.1, [mkPatternHit p pt]) := by
  refine ⟨sortPoints_perm (normPoints p), pairwise_sortPoints (normPoints p),
    dedupedPoints_chain' p, fun h2 => ⟨?_, rfl⟩, patternRegistration p h⟩
  simp [patternBody, if_pos h, if_pos h2]

/-- Scenario C: boundary points [(Jan 3, $20), (Jan 1, $18), (Jan 1, $18)]. -/
def scenarioCPattern : ChartPattern :=
  { pattern_type := "double_bottom", confidence := 1, target_price := none,
    boundary_points :=
      [⟨"2024-01-03T00:00:00", 20⟩, ⟨"2024-01-01T00:00:00", 18⟩,
       ⟨"2024-01-01T00:00:00", 18⟩],
    description := "W-shaped reversal", bias := "bullish" }

/-- Witness for C1 (Scenario C): sort + dedup gives the 2-point list
[(Jan 1, 18), (Jan 3, 20)] and the theorem applies. -/
theorem pattern_polyline_hit_index_witness :
    dedupedPoints scenarioCPattern = [("2024-01-01", 18), ("2024-01-03", 20)] ∧
    2 ≤ scenarioCPattern.boundary_points.length ∧
    ((sortedPoints scenarioCPattern).Perm (normPoints scenarioCPattern) ∧
     List.Pairwise PtLe (sortedPoints scenarioCPattern) ∧
     List.Chain' PtLt (dedupedPoints scenarioCPattern) ∧
     (2 ≤ (dedupedPoints scenarioCPattern).length →
       (patternBody [] scenarioCPattern).1 =
         Primitive.series (patternSeries scenarioCPattern) :: targetPrims scenarioCPattern ∧
       (patternSeries scenarioCPattern).data = dedupedPoints scenarioCPattern) ∧
     (patternBody [] scenarioCPattern).2 =
       (dedupedPoints scenarioCPattern).map fun pt => (pt.1, [mkPatternHit scenarioCPattern pt])) :=
  ⟨by decide, by decide,
   pattern_polyline_hit_index_spec [] scenarioCPattern (by decide)⟩

/-- A pattern with a single boundary point and a target price. -/
def singlePointPattern : ChartPattern :=
  { pattern_type := "flag", confidence := 1, target_price := some 30,
    boundary_points := [⟨"2024-01-02T00:00:00", 20⟩],
    description := "one vertex", bias := "bullish" }

/-- Counterexample for C4: this pattern is left with fewer than two usable
boundary points (one) after normalization and deduplication, and the
polyline is indeed skipped and the target-price line emitted — but its
point is not registered in the hit index, which stays empty, contrary to
the claim that the pattern's points are still registered. -/
theorem pattern_register_counterexample :
    (dedupedPoints singlePointPattern).length < 2 ∧
    dedupedPoints singlePointPattern ≠ [] ∧
    (patternBody [] singlePointPattern).2 = [] ∧
    (patternBody [] singlePointPattern).1 = targetPrims singlePointPattern ∧
    targetPrims singlePointPattern ≠ [] := by decide

/-- C4 as amended: drawing and hit-index registration are independent only
for patterns supplying at least two raw boundary points — there, when fewer
than two deduplicated points remain, the polyline is skipped while every
deduplicated point is still registered and the target-price line is still
emitted; a pattern with fewer than two raw boundary points draws nothing
and registers nothing, but still gets its target-price line. -/
theorem pattern_draw_register_independence (m : HitMap) (p : ChartPattern) :
    (2 ≤ p.boundary_points.length → (dedupedPoints p).length < 2 →
      (patternBody m p).1 = targetPrims p ∧
      ∀ pt ∈ dedupedPoints p,
        lookupHits ((patternBody [] p).2) pt.1 = [mkPatternHit p pt]) ∧
    (p.boundary_points.length < 2 → patternBody m p = (targetPrims p, m)) := by
  constructor
  · intro h2 hlt
    have hneg : ¬ 2 ≤ (dedupedPoints p).length := by omega
    constructor
    · simp [patternBody, if_pos h2, if_neg hneg]
    · intro pt hpt
      rw [patternRegistration p h2]
      exact lookupHits_mapSingleton (mkPatternHit p) (dedupedPoints p)
        (dedupedPoints_keys_distinct p) pt hpt
  · intro hlt
    have hneg : ¬ 2 ≤ p.boundary_points.length := by omega
    simp [patternBody, if_neg hneg]

/-- A pattern whose two boundary points share the same normalized day. -/
def sameDayPattern : ChartPattern :=
  { pattern_type := "breakout", confidence := 1, target_price := some 30,
    boundary_points :=
      [⟨"2024-01-02T00:00:00", 20⟩, ⟨"2024-01-02T12:00:00", 21⟩],
    description := "same-day vertices", bias := "bullish" }

/-- Witness for C4 (amended): two same-day boundary points dedup to one, the
polyline is skipped while the point is registered and the target line kept;
the single-point pattern draws and registers nothing yet keeps its target
line. -/
theorem pattern_draw_register_independence_witness :
    ((patternBody [] sameDayPattern).1 = targetPrims sameDayPattern ∧
      ∀ pt ∈ dedupedPoints sameDayPattern,
        lookupHits ((patternBody [] sameDayPattern).2) pt.1
          = [mkPatternHit sameDayPattern pt]) ∧
    patternBody [] singlePointPattern = (targetPrims singlePointPattern, []) :=
  ⟨(pattern_draw_register_independence [] sameDayPattern).1 (by decide) (by decide),
   (pattern_draw_register_independence [] singlePointPattern).2 (by decide)⟩

/-- C6: with `technicalAnalysis` absent, a refresh still renders the base
chart (the candlestick data is built from every bar) but produces zero
technical-analysis overlay primitives and an empty hit index, no crosshair
subscription is installed, and the tooltip handler reports hidden for every
chart width and pointer coordinate. -/
theorem absent_ta_renders_base_only (inp : RenderInput)
    (hta : inp.technicalAnalysis = none) (hbars : inp.bars ≠ []) :
    ∃ o, render inp = some o ∧
      taOverlays o = [] ∧
      o.patternTimeMap = [] ∧
      (∀ t : String, lookupHits o.patternTimeMap t = []) ∧
      o.subscribed = false ∧
      (∀ (w : Int) (t? : Option String) (p? : Option (Int × Int)),
        resolveTooltip o.patternTimeMap w t? p? = none) ∧
      o.candleData = inp.bars.map fun b =>
        { time := toTime b.timestamp, open_ := b.open_, high := b.high,
          low := b.low, close := b.close } := by
  have hlen : (inp.bars.length == 0) = false := by
    simp [hbars]
  rw [render]
  rw [if_neg (by simp [hlen])]
  rw [hta]
  refine ⟨_, rfl, ?_, ?_, ?_, ?_, ?_, ?_⟩
  · simp [taOverlays]
  · simp
  · intro t
    simp [lookupHits, mapGet]
  · simp
  · intro w t? p?
    exact resolveTooltip_empty _ w t? p? (by simp)
  · simp

/-- The input for the absent-overlay witness: two bars, one signal, every
toggle on, no technical analysis. -/
def scenarioEInput : RenderInput :=
  { bars := [mkBar "2024-01-01T00:00:00" (some 5), mkBar "2024-01-02T00:00:00" (some 6)],
    signals := [{ symbol := "TEST", action := "BUY", setup_type := "breakout",
                  reason := "r", entry := 10, stop_loss := 9, target := 12,
                  rr_ratio := 2, confidence := 1, timestamp := "2024-01-02T00:00:00" }],
    showEma9 := true, showEma21 := true, showEma50 := true, showEma200 := true,
    showVwap := true, showRs := true, technicalAnalysis := none,
    showSupportResistance := true, showTrendlines := true, showPatterns := true,
    showProjections := true }

/-- Witness for C6 (Scenario E): the theorem applies to a refresh with bars
and signals present, all toggles on, and the analysis layer absent. -/
theorem absent_ta_witness :
    ∃ o, render scenarioEInput = some o ∧
      taOverlays o = [] ∧
      o.patternTimeMap = [] ∧
      (∀ t : String, lookupHits o.patternTimeMap t = []) ∧
      o.subscribed = false ∧
      (∀ (w : Int) (t? : Option String) (p? : Option (Int × Int)),
        resolveTooltip o.patternTimeMap w t? p? = none) ∧
      o.candleData = scenarioEInput.bars.map fun b =>
        { time := toTime b.timestamp, open_ := b.open_, high := b.high,
          low := b.low, close := b.close } :=
  absent_ta_renders_base_only scenarioEInput rfl (by decide)

/-- C10: with an empty bar sequence the effect returns before creating the
chart: no render output exists at all, so no overlay primitive is emitted,
the hit index is empty, and the tooltip is never shown, whatever the
signals, toggles and technical analysis supplied. -/
theorem empty_bars_no_render (inp : RenderInput) (h : inp.bars = []) :
    render inp = none ∧
    renderedOverlays (render inp) = [] ∧
    renderedMap (render inp) = [] ∧
    ∀ (w : Int) (t? : Option String) (p? : Option (Int × Int)),
      resolveTooltip (renderedMap (render inp)) w t? p? = none := by
  have hr : render inp = none := by
    rw [render, if_pos (by simp [h])]
  refine ⟨hr, by rw [hr]; rfl, by rw [hr]; rfl, fun w t? p? => ?_⟩
  rw [hr]
  exact resolveTooltip_empty _ w t? p? (by simp [renderedMap])

/-- The input for the empty-bars witness: no bars, but signals, toggles and
a non-trivial technical-analysis bundle all present. -/
def emptyBarsInput : RenderInput :=
  { bars := [],
    signals := [{ symbol := "TEST", action := "SELL", setup_type := "breakout",
                  reason := "r", entry := 10, stop_loss := 11, target := 8,
                  rr_ratio := 2, confidence := 1, timestamp := "2024-01-02T00:00:00" }],
    showEma9 := true, showEma21 := true, showEma50 := true, showEma200 := true,
    showVwap := true, showRs := true,
    technicalAnalysis := some
      { support_levels := [{ price := 10, strength := 1, touches := 3,
                             zone_top := 11, zone_bottom := 9, level_type := "support" }],
        resistance_levels := [], trendlines := [scenarioATrendline],
        patterns := [scenarioCPattern], projections := [],
        trend_summary := "up" },
    showSupportResistance := true, showTrendlines := true, showPatterns := true,
    showProjections := true }

/-- Witness for C10: the theorem applies to the empty-bars input. -/
theorem empty_bars_no_render_witness :
    render emptyBarsInput = none ∧
    renderedOverlays (render emptyBarsInput) = [] ∧
    renderedMap (render emptyBarsInput) = [] ∧
    ∀ (w : Int) (t? : Option String) (p? : Option (Int × Int)),
      resolveTooltip (renderedMap (render emptyBarsInput)) w t? p? = none :=
  empty_bars_no_render emptyBarsInput rfl
